import Mathlib

/-!
Shallow embedding of the multi-context miniscript inspection/compilation
kernel driven by `src/bin/hal/cmd/miniscript.rs`.

The driver code (`exec_inspect`, `exec_parse`, `exec_policy`, `exec_compile`,
and the `FromScriptContexts` impl for `MiniscriptInfo`) is transcribed from
the source.  The `hal` library structs (`MiniscriptInfo`, `ScriptContexts`,
`PolicyInfo`, `Miniscripts`, `MiniscriptKeyType`) are not under `src/`; their
field sets and constructors are pinned by every use site in the driver and by
the spec's Combined Report description, and are modelled accordingly.  The
external `rust-miniscript` semantic-policy operations (`normalized`, `sorted`,
`is_unsatisfiable`, `minimum_n_keys`, ...) are likewise absent from `src/` and
are modelled from the spec (see the doc comments on each).
-/

/-- The four script contexts named by the spec.  The drivers in the source
only ever instantiate a subset of these; which subset is part of what the
theorems below settle. -/
inductive Ctx : Type where
| bare
| legacy
| segwitv0
| tapscript
deriving DecidableEq

/-- Key representation tag, mirroring `MiniscriptKeyType` (used as
`MiniscriptKeyType::PublicKey` / `MiniscriptKeyType::String` in the source). -/
inductive MiniscriptKeyType : Type where
| publicKey
| string
deriving DecidableEq

/-- A script is a byte sequence; bytes are modelled as naturals. -/
abbrev Script : Type := List Nat

/-- Modelled from the spec: the per-context boolean structure of the Combined
Report ("the per-context boolean valid-under-this-context flags collapsed into
one structure").  The `hal` library module defining `ScriptContexts` is not
under `src/`; its shape is pinned by the driver's calls
`ScriptContexts::from_bare`, `::from_p2sh`, `::from_segwitv0` and
`ScriptContexts::or`. -/
structure ScriptContexts : Type where
  bare : Bool
  p2sh : Bool
  segwitv0 : Bool
deriving DecidableEq

def ScriptContexts.from_bare (b : Bool) : ScriptContexts :=
  { bare := b, p2sh := false, segwitv0 := false }

def ScriptContexts.from_p2sh (b : Bool) : ScriptContexts :=
  { bare := false, p2sh := b, segwitv0 := false }

def ScriptContexts.from_segwitv0 (b : Bool) : ScriptContexts :=
  { bare := false, p2sh := false, segwitv0 := b }

def ScriptContexts.or (a b : ScriptContexts) : ScriptContexts :=
  { bare := a.bare || b.bare, p2sh := a.p2sh || b.p2sh,
    segwitv0 := a.segwitv0 || b.segwitv0 }

/-- Outcome of the external analyzer on one successfully parsed miniscript:
the values of `ms.script_size()`, `ms.max_satisfaction_witness_elements()`,
`ms.max_satisfaction_size()`, `ms.lift()`, `ms.requires_sig()`,
`ms.is_non_malleable()`, `ms.within_resource_limits()`,
`ms.has_mixed_timelocks()`, `ms.has_repeated_keys()`,
`ms.sanity_check().is_ok()` and `ms.encode()` as consumed by the driver.
The analyzer itself is external-library code; the driver treats these values
opaquely, so they are abstract inputs here. -/
structure MsAnalysis : Type where
  script_size : Nat
  max_satisfaction_witness_elements : Option Nat
  max_satisfaction_size : Option Nat
  lifted_policy : Option String
  requires_sig : Bool
  non_malleable : Bool
  within_resource_limits : Bool
  has_mixed_timelocks : Bool
  has_repeated_keys : Bool
  sane : Bool
  encoded : Script
deriving DecidableEq

/-- The per-context / combined report, mirroring `hal`'s `MiniscriptInfo`
struct: its full field set is written out by the `from_bare` / `from_p2sh` /
`from_segwitv0` constructors in the source. -/
structure MiniscriptInfo : Type where
  key_type : MiniscriptKeyType
  valid_script_contexts : ScriptContexts
  script_size : Nat
  max_satisfaction_witness_elements : Option Nat
  max_satisfaction_size_segwit : Option Nat
  max_satisfaction_size_non_segwit : Option Nat
  script : Option Script
  policy : Option String
  requires_sig : Bool
  non_malleable : ScriptContexts
  within_resource_limits : ScriptContexts
  has_mixed_timelocks : Bool
  has_repeated_keys : Bool
  sane_miniscript : ScriptContexts
deriving DecidableEq

/-- Transcription of `MiniscriptInfo::from_bare`. -/
def MiniscriptInfo.from_bare (ms : MsAnalysis) (key_type : MiniscriptKeyType)
    (script : Option Script) : MiniscriptInfo :=
  { key_type := key_type
    valid_script_contexts := ScriptContexts.from_bare true
    script_size := ms.script_size
    max_satisfaction_witness_elements := ms.max_satisfaction_witness_elements
    max_satisfaction_size_segwit := none
    max_satisfaction_size_non_segwit := ms.max_satisfaction_size
    script := script
    policy := ms.lifted_policy
    requires_sig := ms.requires_sig
    non_malleable := ScriptContexts.from_bare ms.non_malleable
    within_resource_limits := ScriptContexts.from_bare ms.within_resource_limits
    has_mixed_timelocks := ms.has_mixed_timelocks
    has_repeated_keys := ms.has_repeated_keys
    sane_miniscript := ScriptContexts.from_bare ms.sane }

/-- Transcription of `MiniscriptInfo::from_p2sh`. -/
def MiniscriptInfo.from_p2sh (ms : MsAnalysis) (key_type : MiniscriptKeyType)
    (script : Option Script) : MiniscriptInfo :=
  { key_type := key_type
    valid_script_contexts := ScriptContexts.from_p2sh true
    script_size := ms.script_size
    max_satisfaction_witness_elements := ms.max_satisfaction_witness_elements
    max_satisfaction_size_segwit := none
    max_satisfaction_size_non_segwit := ms.max_satisfaction_size
    script := script
    policy := ms.lifted_policy
    requires_sig := ms.requires_sig
    non_malleable := ScriptContexts.from_p2sh ms.non_malleable
    within_resource_limits := ScriptContexts.from_p2sh ms.within_resource_limits
    has_mixed_timelocks := ms.has_mixed_timelocks
    has_repeated_keys := ms.has_repeated_keys
    sane_miniscript := ScriptContexts.from_p2sh ms.sane }

/-- Transcription of `MiniscriptInfo::from_segwitv0`: the satisfaction size
goes into the segwit field, the non-segwit field stays empty. -/
def MiniscriptInfo.from_segwitv0 (ms : MsAnalysis) (key_type : MiniscriptKeyType)
    (script : Option Script) : MiniscriptInfo :=
  { key_type := key_type
    valid_script_contexts := ScriptContexts.from_segwitv0 true
    script_size := ms.script_size
    max_satisfaction_witness_elements := ms.max_satisfaction_witness_elements
    max_satisfaction_size_segwit := ms.max_satisfaction_size
    max_satisfaction_size_non_segwit := none
    script := script
    policy := ms.lifted_policy
    requires_sig := ms.requires_sig
    non_malleable := ScriptContexts.from_segwitv0 ms.non_malleable
    within_resource_limits := ScriptContexts.from_segwitv0 ms.within_resource_limits
    has_mixed_timelocks := ms.has_mixed_timelocks
    has_repeated_keys := ms.has_repeated_keys
    sane_miniscript := ScriptContexts.from_segwitv0 ms.sane }

/-- Transcription of `MiniscriptInfo::combine` (the source's field-by-field
merge, including `has_repeated_keys: b.has_repeated_keys`). -/
def MiniscriptInfo.combine :
    Option MiniscriptInfo → Option MiniscriptInfo → Option MiniscriptInfo
  | none, none => none
  | none, some b => some b
  | some a, none => some a
  | some a, some b =>
    some
      { key_type := a.key_type
        valid_script_contexts :=
          ScriptContexts.or a.valid_script_contexts b.valid_script_contexts
        script_size := a.script_size
        max_satisfaction_witness_elements :=
          a.max_satisfaction_witness_elements.or b.max_satisfaction_witness_elements
        max_satisfaction_size_segwit :=
          a.max_satisfaction_size_segwit.or b.max_satisfaction_size_segwit
        max_satisfaction_size_non_segwit :=
          a.max_satisfaction_size_non_segwit.or b.max_satisfaction_size_non_segwit
        script := a.script
        policy := a.policy.or b.policy
        requires_sig := a.requires_sig
        non_malleable := ScriptContexts.or a.non_malleable b.non_malleable
        within_resource_limits :=
          ScriptContexts.or a.within_resource_limits b.within_resource_limits
        has_mixed_timelocks := a.has_mixed_timelocks
        has_repeated_keys := b.has_repeated_keys
        sane_miniscript := ScriptContexts.or a.sane_miniscript b.sane_miniscript }

/-- The contexts under which `exec_inspect` and `exec_parse` attempt
Miniscript construction, in the source's textual order of attempts for
`exec_inspect` (`BareCtx`, `Legacy`, `Segwitv0`); `exec_parse` attempts the
same three. -/
def inspectAttemptedContexts : List Ctx := [Ctx.bare, Ctx.legacy, Ctx.segwitv0]

/-- The claim side's four-context list, for comparison. -/
def specFourContexts : List Ctx :=
  [Ctx.bare, Ctx.legacy, Ctx.segwitv0, Ctx.tapscript]

/-- Transcription of `exec_parse`: the per-context results of
`Miniscript::<_, Ctx>::parse_insane(&script)` are abstract inputs (`none`
models a parse error, which the source logs and discards via `.ok()`).
If all three are `none` the source exits with the aggregate message;
otherwise it combines the three reports and unwraps. -/
def exec_parse (bare_r legacy_r segwit_r : Option MsAnalysis) (script : Script) :
    Except String MiniscriptInfo :=
  let segwit_info :=
    segwit_r.map fun x =>
      MiniscriptInfo.from_segwitv0 x MiniscriptKeyType.publicKey (some script)
  let legacy_info :=
    legacy_r.map fun x =>
      MiniscriptInfo.from_p2sh x MiniscriptKeyType.publicKey (some script)
  let bare_info :=
    bare_r.map fun x =>
      MiniscriptInfo.from_bare x MiniscriptKeyType.publicKey (some script)
  if segwit_info.isNone && legacy_info.isNone && bare_info.isNone then
    Except.error "Invalid Miniscript under all script contexts"
  else
    match MiniscriptInfo.combine (MiniscriptInfo.combine bare_info legacy_info)
        segwit_info with
    | some i => Except.ok i
    | none => Except.error "unwrap panic"

/-- Transcription of `exec_inspect`: first the three contexts are attempted
with concrete public keys (`pb`, `pl`, `ps` model the outcomes of
`from_str_insane` for `BareCtx`, `Legacy`, `Segwitv0`; the successful parse
also yields `x.encode()`, carried in `MsAnalysis.encoded`).  Only when all
three fail, the same three contexts are attempted with `String` placeholder
keys (`sb`, `sl`, `ss`), with no script attached. -/
def exec_inspect (pb pl ps sb sl ss : Option MsAnalysis) :
    Except String MiniscriptInfo :=
  let bare_info :=
    pb.map fun x =>
      MiniscriptInfo.from_bare x MiniscriptKeyType.publicKey (some x.encoded)
  let p2sh_info :=
    pl.map fun x =>
      MiniscriptInfo.from_p2sh x MiniscriptKeyType.publicKey (some x.encoded)
  let segwit_info :=
    ps.map fun x =>
      MiniscriptInfo.from_segwitv0 x MiniscriptKeyType.publicKey (some x.encoded)
  if bare_info.isNone && p2sh_info.isNone && segwit_info.isNone then
    let bare_s := sb.map fun x =>
      MiniscriptInfo.from_bare x MiniscriptKeyType.string none
    let p2sh_s := sl.map fun x =>
      MiniscriptInfo.from_p2sh x MiniscriptKeyType.string none
    let segwit_s := ss.map fun x =>
      MiniscriptInfo.from_segwitv0 x MiniscriptKeyType.string none
    match MiniscriptInfo.combine (MiniscriptInfo.combine bare_s p2sh_s)
        segwit_s with
    | some i => Except.ok i
    | none => Except.error "Invalid Miniscript"
  else
    match MiniscriptInfo.combine (MiniscriptInfo.combine bare_info p2sh_info)
        segwit_info with
    | some i => Except.ok i
    | none => Except.error "unwrap panic"

/-- Modelled from the spec: the abstract (semantic) policy AST of §3 — a
boolean-algebra tree over leaves {key, sha256, hash256, ripemd160, hash160,
relative time (older), absolute time (after)} combined via AND, OR and
THRESHOLD-of-K-of-N, plus the trivially-true and provably-false policies that
`is_trivial` / `is_unsatisfiable` report on.  The `rust-miniscript` policy
module is external-library code not under `src/`.  Keys, hash images and
timelock values are opaque ordered payloads, modelled as naturals (the spec's
"opaque key-equality/ordering capability").  Concrete policies are modelled
over the same tree with OR-probability weights dropped, since no modelled
field depends on them. -/
inductive SPolicy : Type where
| triv
| unsat
| keyP (k : Nat)
| afterP (n : Nat)
| olderP (n : Nat)
| sha256P (h : Nat)
| hash256P (h : Nat)
| ripemd160P (h : Nat)
| hash160P (h : Nat)
| andP (l : List SPolicy)
| orP (l : List SPolicy)
| threshP (k : Nat) (l : List SPolicy)

mutual

/-- Injective numeric code of a policy (tag paired with payload), giving the
total order the spec requires for canonical sorting ("a total order over leaf
kind then leaf payload"). -/
def encP : SPolicy → Nat
  | .triv => Nat.pair 0 0
  | .unsat => Nat.pair 1 0
  | .keyP k => Nat.pair 2 k
  | .afterP n => Nat.pair 3 n
  | .olderP n => Nat.pair 4 n
  | .sha256P h => Nat.pair 5 h
  | .hash256P h => Nat.pair 6 h
  | .ripemd160P h => Nat.pair 7 h
  | .hash160P h => Nat.pair 8 h
  | .andP l => Nat.pair 9 (encL l)
  | .orP l => Nat.pair 10 (encL l)
  | .threshP k l => Nat.pair 11 (Nat.pair k (encL l))

/-- Injective numeric code of a list of policies. -/
def encL : List SPolicy → Nat
  | [] => 0
  | p :: l => Nat.pair (encP p) (encL l) + 1

end

/-- The canonical-order relation on policies used by `sorted`. -/
def rle (p q : SPolicy) : Prop := encP p ≤ encP q

instance : DecidableRel rle := fun _ _ => Nat.decLe _ _

mutual

/-- Modelled from the spec: `sorted` — "produces a canonical ordering of
sibling leaves/subtrees (by a total order over leaf kind then leaf payload)
so that two structurally-equivalent policies compare equal as strings
regardless of input ordering".  Children are sorted recursively, then the
sibling list is put into the canonical order. -/
def sortP : SPolicy → SPolicy
  | .andP l => .andP (List.insertionSort rle (sortL l))
  | .orP l => .orP (List.insertionSort rle (sortL l))
  | .threshP k l => .threshP k (List.insertionSort rle (sortL l))
  | p => p

def sortL : List SPolicy → List SPolicy
  | [] => []
  | p :: l => sortP p :: sortL l

end

def isTrivNode : SPolicy → Bool
  | .triv => true
  | _ => false

def isUnsatNode : SPolicy → Bool
  | .unsat => true
  | _ => false

def isAndNode : SPolicy → Bool
  | .andP _ => true
  | _ => false

def isOrNode : SPolicy → Bool
  | .orP _ => true
  | _ => false

/-- One flattening pass for AND children: inline nested ANDs, drop the
always-true sub-policies. -/
def flattenAnd : List SPolicy → List SPolicy
  | [] => []
  | .triv :: l => flattenAnd l
  | .andP l' :: l => l' ++ flattenAnd l
  | p :: l => p :: flattenAnd l

/-- Rebuild an AND node from normalized children: an always-false child makes
the whole conjunction always-false; an empty conjunction is always-true. -/
def mkAnd (l : List SPolicy) : SPolicy :=
  let c := flattenAnd l
  if c.any isUnsatNode then .unsat
  else if c.isEmpty then .triv
  else .andP c

/-- One flattening pass for OR children: inline nested ORs, drop the
always-false sub-policies. -/
def flattenOr : List SPolicy → List SPolicy
  | [] => []
  | .unsat :: l => flattenOr l
  | .orP l' :: l => l' ++ flattenOr l
  | p :: l => p :: flattenOr l

/-- Rebuild an OR node from normalized children: an always-true child makes
the whole disjunction always-true; an empty disjunction is always-false. -/
def mkOr (l : List SPolicy) : SPolicy :=
  let c := flattenOr l
  if c.any isTrivNode then .triv
  else if c.isEmpty then .unsat
  else .orP c

mutual

/-- Modelled from the spec: `normalize` — "flattens nested AND/OR of the same
kind and removes redundant always-true/always-false sub-policies". -/
def normalizeP : SPolicy → SPolicy
  | .andP l => mkAnd (normList l)
  | .orP l => mkOr (normList l)
  | .threshP k l => .threshP k (normList l)
  | p => p

def normList : List SPolicy → List SPolicy
  | [] => []
  | p :: l => normalizeP p :: normList l

end

mutual

/-- Normal forms of `normalize`: AND/OR nodes are nonempty, their children are
normal, are not the removed always-true/always-false policies, and are not a
node of the same kind (fully flattened). -/
def isNormal : SPolicy → Bool
  | .andP l => !l.isEmpty && isNormalAndList l
  | .orP l => !l.isEmpty && isNormalOrList l
  | .threshP _ l => isNormalAnyList l
  | _ => true

def isNormalAndList : List SPolicy → Bool
  | [] => true
  | p :: l =>
    isNormal p && !isTrivNode p && !isUnsatNode p && !isAndNode p &&
      isNormalAndList l

def isNormalOrList : List SPolicy → Bool
  | [] => true
  | p :: l =>
    isNormal p && !isTrivNode p && !isUnsatNode p && !isOrNode p &&
      isNormalOrList l

def isNormalAnyList : List SPolicy → Bool
  | [] => true
  | p :: l => isNormal p && isNormalAnyList l

end

mutual

/-- Modelled from the spec: `is_unsatisfiable` — "provably false, computed via
a conservative boolean-satisfiability walk, not full SAT solving".  A
conjunction is unsatisfiable when some child is, a disjunction when all
children are, a threshold when fewer than `k` children are satisfiable. -/
def is_unsatisfiable : SPolicy → Bool
  | .unsat => true
  | .andP l => anyUnsatList l
  | .orP l => allUnsatList l
  | .threshP k l => decide (satCount l < k)
  | _ => false

def anyUnsatList : List SPolicy → Bool
  | [] => false
  | p :: l => is_unsatisfiable p || anyUnsatList l

def allUnsatList : List SPolicy → Bool
  | [] => true
  | p :: l => is_unsatisfiable p && allUnsatList l

/-- Number of satisfiable children of a threshold. -/
def satCount : List SPolicy → Nat
  | [] => 0
  | p :: l => (if is_unsatisfiable p then 0 else 1) + satCount l

end

/-- Modelled from the spec: `is_trivial` — the policy with no leaves that is
trivially satisfied. -/
def is_trivial : SPolicy → Bool
  | .triv => true
  | _ => false

mutual

/-- Modelled from the spec: `minimum_n_keys` — the number of key leaves that
must sign on the cheapest satisfying path: `none` when no satisfying path
exists, the sum over AND children, the best satisfiable branch of an OR, and
the "pick K cheapest of N" solution for a threshold. -/
def minimum_n_keys : SPolicy → Option Nat
  | .unsat => none
  | .triv => some 0
  | .keyP _ => some 1
  | .afterP _ => some 0
  | .olderP _ => some 0
  | .sha256P _ => some 0
  | .hash256P _ => some 0
  | .ripemd160P _ => some 0
  | .hash160P _ => some 0
  | .andP l => sumKeys l
  | .orP l => minKeysList l
  | .threshP k l =>
    let s := subKeys l
    if s.length < k then none
    else some (((List.insertionSort (· ≤ ·) s).take k).sum)

/-- Key count of a conjunction: every child must be satisfied. -/
def sumKeys : List SPolicy → Option Nat
  | [] => some 0
  | p :: l =>
    match minimum_n_keys p, sumKeys l with
    | some a, some b => some (a + b)
    | _, _ => none

/-- Cheapest satisfiable branch of a disjunction. -/
def minKeysList : List SPolicy → Option Nat
  | [] => none
  | p :: l =>
    match minimum_n_keys p, minKeysList l with
    | some a, some b => some (min a b)
    | some a, none => some a
    | none, r => r

/-- Key counts of the satisfiable children of a threshold. -/
def subKeys : List SPolicy → List Nat
  | [] => []
  | p :: l =>
    match minimum_n_keys p with
    | some a => a :: subKeys l
    | none => subKeys l

end

mutual

/-- All key payloads occurring in a policy, in occurrence order. -/
def keysOf : SPolicy → List Nat
  | .keyP k => [k]
  | .andP l => keysOfList l
  | .orP l => keysOfList l
  | .threshP _ l => keysOfList l
  | _ => []

def keysOfList : List SPolicy → List Nat
  | [] => []
  | p :: l => keysOf p ++ keysOfList l

end

/-- Modelled from the spec: `n_keys` — the number of distinct key leaves. -/
def n_keys (p : SPolicy) : Nat := (keysOf p).dedup.length

mutual

/-- All relative-timelock (older) payloads occurring in a policy. -/
def oldersOf : SPolicy → List Nat
  | .olderP n => [n]
  | .andP l => oldersOfList l
  | .orP l => oldersOfList l
  | .threshP _ l => oldersOfList l
  | _ => []

def oldersOfList : List SPolicy → List Nat
  | [] => []
  | p :: l => oldersOf p ++ oldersOfList l

end

/-- Modelled from the spec: `relative_timelocks` — the distinct relative
timelock values appearing in the policy. -/
def relative_timelocks (p : SPolicy) : List Nat := (oldersOf p).dedup

/-- Modelled from the spec: `lift` of a concrete policy — "structural
translation of each fragment to its policy-leaf equivalent, with
AND/OR/THRESHOLD structure preserved".  On the unified policy tree (weights
already dropped) this is the identity translation. -/
def liftC (p : SPolicy) : SPolicy := p

/-- Error type of the policy analysis, mirroring `miniscript::Error` at the
points the driver uses it (`Error::CouldNotSatisfy`, parse errors). -/
inductive MsError : Type where
| couldNotSatisfy
| parseFailed
deriving DecidableEq

/-- The per-context compilations attached to a concrete policy's report,
mirroring `hal`'s `Miniscripts` struct as filled in by `get_policy_info`
(fields `bare`, `p2sh`, `segwitv0`). -/
structure Miniscripts (MS : Type) : Type where
  bare : Option MS
  p2sh : Option MS
  segwitv0 : Option MS
deriving DecidableEq

/-- The policy report, mirroring `hal`'s `PolicyInfo` as filled in by
`get_policy_info`.  The source renders `sorted` and `normalized` policies to
strings via `Display`; the model keeps the policies themselves. -/
structure PolicyInfo (MS : Type) : Type where
  is_concrete : Bool
  key_type : MiniscriptKeyType
  is_trivial : Bool
  is_unsatisfiable : Bool
  relative_timelocks : List Nat
  n_keys : Nat
  minimum_n_keys : Nat
  sorted : SPolicy
  normalized : SPolicy
  miniscript : Option (Miniscripts MS)

/-- The contexts `get_policy_info` compiles a concrete policy for, in source
order (`BareCtx`, `Legacy`, `Segwitv0`). -/
def policyCompiledContexts : List Ctx := [Ctx.bare, Ctx.legacy, Ctx.segwitv0]

/-- Transcription of `get_policy_info`: `concrete_pol` models
`policy_str.parse::<Concrete<_>>().ok()`, `semParse` models
`policy_str.parse::<Semantic<_>>()`, and `bcBare`/`bcP2sh`/`bcSegwit` model
`best_compilation` for the three compiled contexts (`none` is a logged,
non-fatal compiler error).  A policy whose `minimum_n_keys` is `none` turns
into the fatal `Error::CouldNotSatisfy`. -/
def get_policy_info {MS : Type} (concrete_pol : Option SPolicy)
    (semParse : Except MsError SPolicy)
    (bcBare bcP2sh bcSegwit : SPolicy → Option MS)
    (key_type : MiniscriptKeyType) : Except MsError (PolicyInfo MS) :=
  let policyE : Except MsError SPolicy :=
    match concrete_pol with
    | some c => Except.ok (liftC c)
    | none => semParse
  match policyE with
  | Except.error e => Except.error e
  | Except.ok policy =>
    match minimum_n_keys policy with
    | none => Except.error MsError.couldNotSatisfy
    | some mnk =>
      Except.ok
        { is_concrete := concrete_pol.isSome
          key_type := key_type
          is_trivial := is_trivial policy
          is_unsatisfiable := is_unsatisfiable policy
          relative_timelocks := relative_timelocks policy
          n_keys := n_keys policy
          minimum_n_keys := mnk
          sorted := sortP policy
          normalized := normalizeP policy
          miniscript := concrete_pol.map fun c =>
            { bare := bcBare c, p2sh := bcP2sh c, segwitv0 := bcSegwit c } }

/-- Transcription of `exec_policy`'s fallback: first the policy is analyzed
with concrete public keys; only if that fails, with placeholder string keys;
if both fail the command exits with a single failure. -/
def exec_policy {MS : Type} (pk_res str_res : Except MsError (PolicyInfo MS)) :
    Except String (PolicyInfo MS) :=
  match pk_res with
  | Except.ok i => Except.ok i
  | Except.error _ =>
    match str_res with
    | Except.ok i => Except.ok i
    | Except.error _ => Except.error "Invalid policy"

/-- The target contexts `exec_compile` accepts (clap's `possible_values`:
`bare`, `p2sh`, `segwitv0`, `tapscript`). -/
def compileContexts : List Ctx :=
  [Ctx.bare, Ctx.legacy, Ctx.segwitv0, Ctx.tapscript]

/-- Transcription of `exec_compile`: `parsed` models
`policy_str.parse::<Concrete<_>>()` (`none` is the parse error), `bc` models
`best_compilation` dispatched on the requested context — per the spec's
contract it yields the single cheapest-to-satisfy miniscript implementing the
policy under that context's legal-fragment set, or nothing when no legal
encoding exists — and `encode` models `ms.encode()`. -/
def exec_compile {MS SOut : Type} (parsed : Option SPolicy)
    (bc : Ctx → SPolicy → Option MS) (encode : MS → SOut) (ty : Ctx) :
    Except String SOut :=
  match parsed with
  | none => Except.error "Invalid concrete policy"
  | some c =>
    match bc ty c with
    | some ms => Except.ok (encode ms)
    | none => Except.error "Compilation error"

/-- A sample analyzer outcome (used by concrete witnesses below). -/
def msA : MsAnalysis :=
  { script_size := 10
    max_satisfaction_witness_elements := some 3
    max_satisfaction_size := some 20
    lifted_policy := some "polA"
    requires_sig := true
    non_malleable := true
    within_resource_limits := true
    has_mixed_timelocks := false
    has_repeated_keys := false
    sane := true
    encoded := [81] }

/-- A second sample analyzer outcome, differing from `msA` in every
context-independent field. -/
def msB : MsAnalysis :=
  { script_size := 11
    max_satisfaction_witness_elements := none
    max_satisfaction_size := some 22
    lifted_policy := none
    requires_sig := false
    non_malleable := true
    within_resource_limits := false
    has_mixed_timelocks := true
    has_repeated_keys := true
    sane := false
    encoded := [82] }

/-- The Bare report built from `msA` with concrete keys and no script. -/
def infoBareA : MiniscriptInfo :=
  MiniscriptInfo.from_bare msA MiniscriptKeyType.publicKey none

/-- The Legacy report built from `msB`. -/
def infoP2shB : MiniscriptInfo :=
  MiniscriptInfo.from_p2sh msB MiniscriptKeyType.publicKey none

/-- The SegwitV0 report built from `msB`. -/
def infoSegwitB : MiniscriptInfo :=
  MiniscriptInfo.from_segwitv0 msB MiniscriptKeyType.publicKey none

/-- The merge of the Bare and Legacy sample reports. -/
def infoCombAB : MiniscriptInfo :=
  (MiniscriptInfo.combine (some infoBareA) (some infoP2shB)).getD infoBareA

/-- The combined report `exec_inspect` produces when Bare and Legacy succeed
with concrete keys on the sample outcomes. -/
def infoInspectAB : MiniscriptInfo :=
  ((exec_inspect (some msA) (some msB) none none none none).toOption).getD infoBareA

/-- The Bare report built from `msA` with placeholder string keys, as the
string-fallback branch of `exec_inspect` builds it. -/
def infoStrA : MiniscriptInfo :=
  MiniscriptInfo.from_bare msA MiniscriptKeyType.string none

/-- Reordering of AND/OR children, anywhere in a policy tree: the congruence
closure of permuting the child list of one AND or OR node. -/
inductive Reorder : SPolicy → SPolicy → Prop where
| refl (p : SPolicy) : Reorder p p
| trans {p q r : SPolicy} : Reorder p q → Reorder q r → Reorder p r
| permAnd {l l' : List SPolicy} : l.Perm l' → Reorder (.andP l) (.andP l')
| permOr {l l' : List SPolicy} : l.Perm l' → Reorder (.orP l) (.orP l')
| congrAnd (l₁ l₂ : List SPolicy) {p p' : SPolicy} :
    Reorder p p' → Reorder (.andP (l₁ ++ p :: l₂)) (.andP (l₁ ++ p' :: l₂))
| congrOr (l₁ l₂ : List SPolicy) {p p' : SPolicy} :
    Reorder p p' → Reorder (.orP (l₁ ++ p :: l₂)) (.orP (l₁ ++ p' :: l₂))
| congrThresh (k : Nat) (l₁ l₂ : List SPolicy) {p p' : SPolicy} :
    Reorder p p' → Reorder (.threshP k (l₁ ++ p :: l₂)) (.threshP k (l₁ ++ p' :: l₂))

instance : IsTotal SPolicy rle := ⟨fun a b => Nat.le_total (encP a) (encP b)⟩

instance : IsTrans SPolicy rle := ⟨fun _ _ _ h1 h2 => Nat.le_trans h1 h2⟩

/-- The merge of the Bare and SegwitV0 sample reports. -/
def infoCombASeg : MiniscriptInfo :=
  (MiniscriptInfo.combine (some infoBareA) (some infoSegwitB)).getD infoBareA

/-- The policy report produced for the concrete single-key policy, with the
sample compilation oracles (used by concrete witnesses below). -/
def infoK1 : PolicyInfo Nat :=
  { is_concrete := true
    key_type := MiniscriptKeyType.publicKey
    is_trivial := false
    is_unsatisfiable := false
    relative_timelocks := []
    n_keys := 1
    minimum_n_keys := 1
    sorted := SPolicy.keyP 1
    normalized := SPolicy.keyP 1
    miniscript := some { bare := some 100, p2sh := some 101, segwitv0 := some 102 } }

/-- Claim C2 (counterexample): `combine` does not take `has_repeated_keys`
from the first successful context — merging a Bare report with
`has_repeated_keys = false` and a Legacy report with `has_repeated_keys =
true` yields `true`, the second report's value. -/
theorem c2_counterexample :
    (MiniscriptInfo.combine (some infoBareA) (some infoP2shB)).map
        (fun i => i.has_repeated_keys) = some true ∧
    infoBareA.has_repeated_keys = false := by
  decide

/-- Claim C2 (amended): when two contexts succeed, `script_size`, `script`,
`requires_sig` and `has_mixed_timelocks` come from the first report;
`has_repeated_keys` comes from the second (last) report; `policy`, the
witness-element count and the two satisfaction-size fields take the first
present value, so the two satisfaction-size fields may originate in different
successful contexts; the per-context flag structures are or-collapsed. -/
theorem c2_amended : ∀ a b c : MiniscriptInfo,
    MiniscriptInfo.combine (some a) (some b) = some c →
    c.key_type = a.key_type ∧
    c.script_size = a.script_size ∧
    c.script = a.script ∧
    c.requires_sig = a.requires_sig ∧
    c.has_mixed_timelocks = a.has_mixed_timelocks ∧
    c.has_repeated_keys = b.has_repeated_keys ∧
    c.policy = a.policy.or b.policy ∧
    c.max_satisfaction_witness_elements =
      a.max_satisfaction_witness_elements.or b.max_satisfaction_witness_elements ∧
    c.max_satisfaction_size_segwit =
      a.max_satisfaction_size_segwit.or b.max_satisfaction_size_segwit ∧
    c.max_satisfaction_size_non_segwit =
      a.max_satisfaction_size_non_segwit.or b.max_satisfaction_size_non_segwit ∧
    c.valid_script_contexts =
      ScriptContexts.or a.valid_script_contexts b.valid_script_contexts ∧
    c.non_malleable = ScriptContexts.or a.non_malleable b.non_malleable ∧
    c.within_resource_limits =
      ScriptContexts.or a.within_resource_limits b.within_resource_limits ∧
    c.sane_miniscript = ScriptContexts.or a.sane_miniscript b.sane_miniscript := by
  intro a b c h
  simp only [MiniscriptInfo.combine, Option.some.injEq] at h
  subst h
  exact ⟨rfl, rfl, rfl, rfl, rfl, rfl, rfl, rfl, rfl, rfl, rfl, rfl, rfl, rfl⟩

/-- Claim C2 (witness): the amended characterization applied to the sample
Bare and Legacy reports. -/
theorem c2_witness :
    infoCombAB.has_repeated_keys = infoP2shB.has_repeated_keys ∧
    infoCombAB.script_size = infoBareA.script_size := by
  have h := c2_amended infoBareA infoP2shB infoCombAB (by decide)
  exact ⟨h.2.2.2.2.2.1, h.2.1⟩

/-- Claim C5 (counterexample): after merging a Bare report with a SegwitV0
report, the combined report carries both `max_satisfaction_size_segwit` and
`max_satisfaction_size_non_segwit`, so the mutual exclusivity does not hold
for the Combined Report. -/
theorem c5_counterexample :
    (MiniscriptInfo.combine (some infoBareA) (some infoSegwitB)).map
        (fun i => (i.max_satisfaction_size_segwit.isSome,
                   i.max_satisfaction_size_non_segwit.isSome)) =
      some (true, true) := by
  decide

/-- Claim C5 (amended): in every per-context report the two satisfaction-size
fields are mutually exclusive — the segwit field is `none` for Bare and
Legacy, the non-segwit field is `none` for SegwitV0 — but merging a Bare
report with a SegwitV0 report populates both fields of the combined report,
one from each context. -/
theorem c5_amended :
    (∀ d kt s, (MiniscriptInfo.from_bare d kt s).max_satisfaction_size_segwit = none) ∧
    (∀ d kt s, (MiniscriptInfo.from_p2sh d kt s).max_satisfaction_size_segwit = none) ∧
    (∀ d kt s, (MiniscriptInfo.from_segwitv0 d kt s).max_satisfaction_size_non_segwit = none) ∧
    (∀ (d d' : MsAnalysis) kt kt' s s' c,
      MiniscriptInfo.combine (some (MiniscriptInfo.from_bare d kt s))
          (some (MiniscriptInfo.from_segwitv0 d' kt' s')) = some c →
      c.max_satisfaction_size_non_segwit = d.max_satisfaction_size ∧
      c.max_satisfaction_size_segwit = d'.max_satisfaction_size) := by
  refine ⟨fun _ _ _ => rfl, fun _ _ _ => rfl, fun _ _ _ => rfl, ?_⟩
  intro d d' kt kt' s s' c h
  simp only [MiniscriptInfo.combine, Option.some.injEq] at h
  subst h
  constructor
  · show (d.max_satisfaction_size.or none) = d.max_satisfaction_size
    cases d.max_satisfaction_size <;> rfl
  · show ((none : Option Nat).or d'.max_satisfaction_size) = d'.max_satisfaction_size
    rfl

/-- Claim C5 (witness): the merged-both behavior on the sample reports. -/
theorem c5_witness :
    infoCombASeg.max_satisfaction_size_non_segwit = msA.max_satisfaction_size ∧
    infoCombASeg.max_satisfaction_size_segwit = msB.max_satisfaction_size := by
  exact c5_amended.2.2.2 msA msB MiniscriptKeyType.publicKey
    MiniscriptKeyType.publicKey none none infoCombASeg (by decide)

/-- Claim C6: a per-context parse failure is non-fatal — the failing context
contributes no report and its validity flag is false in the combined report;
`exec_parse` fails if and only if all contexts fail, with the single
aggregate "invalid in every context" message; `exec_inspect` fails if and
only if every context fails for both key representations. -/
theorem c6_thm :
    (∀ (b l s : Option MsAnalysis) (scr : Script),
      ((exec_parse b l s scr).isOk = (b.isSome || l.isSome || s.isSome)) ∧
      (exec_parse b l s scr =
          Except.error "Invalid Miniscript under all script contexts" ↔
        (b = none ∧ l = none ∧ s = none)) ∧
      (∀ info, exec_parse b l s scr = Except.ok info →
        info.valid_script_contexts = ⟨b.isSome, l.isSome, s.isSome⟩)) ∧
    (∀ pb pl ps sb sl ss : Option MsAnalysis,
      (exec_inspect pb pl ps sb sl ss).isOk =
        (pb.isSome || pl.isSome || ps.isSome ||
         sb.isSome || sl.isSome || ss.isSome)) := by
  constructor
  · intro b l s scr
    refine ⟨?_, ?_, ?_⟩ <;>
      cases b <;> cases l <;> cases s <;>
        simp [exec_parse, MiniscriptInfo.combine, MiniscriptInfo.from_bare,
          MiniscriptInfo.from_p2sh, MiniscriptInfo.from_segwitv0,
          ScriptContexts.or, ScriptContexts.from_bare, ScriptContexts.from_p2sh,
          ScriptContexts.from_segwitv0, Except.isOk, Except.toBool]
  · intro pb pl ps sb sl ss
    cases pb <;> cases pl <;> cases ps <;> cases sb <;> cases sl <;> cases ss <;>
      simp [exec_inspect, MiniscriptInfo.combine, Except.isOk, Except.toBool]

/-- Claim C6 (witness): on a run where only the Bare context succeeds,
`exec_parse` returns a report whose only set validity flag is Bare. -/
theorem c6_witness :
    (exec_parse (some msA) none none []).isOk =
      ((some msA).isSome || (none : Option MsAnalysis).isSome ||
        (none : Option MsAnalysis).isSome) ∧
    (MiniscriptInfo.from_bare msA MiniscriptKeyType.publicKey
        (some [])).valid_script_contexts =
      ⟨(some msA).isSome, (none : Option MsAnalysis).isSome,
        (none : Option MsAnalysis).isSome⟩ := by
  refine ⟨(c6_thm.1 (some msA) none none []).1, ?_⟩
  exact (c6_thm.1 (some msA) none none []).2.2
    (MiniscriptInfo.from_bare msA MiniscriptKeyType.publicKey (some [])) rfl

/-- Claim C10: `exec_inspect` consults the placeholder-string parse only when
the concrete-key parse fails under every context — if any concrete-key
context succeeds, the result does not depend on the string-parse outcomes and
the combined report's key type is PublicKey; when only the placeholder parse
succeeds, the report's key type is String and its script field is absent. -/
theorem c10_thm :
    (∀ pb pl ps sb sl ss sb' sl' ss' : Option MsAnalysis,
      (pb.isSome || pl.isSome || ps.isSome) = true →
      exec_inspect pb pl ps sb sl ss = exec_inspect pb pl ps sb' sl' ss' ∧
      (∀ info, exec_inspect pb pl ps sb sl ss = Except.ok info →
        info.key_type = MiniscriptKeyType.publicKey)) ∧
    (∀ sb sl ss : Option MsAnalysis,
      ∀ info, exec_inspect none none none sb sl ss = Except.ok info →
        info.key_type = MiniscriptKeyType.string ∧ info.script = none) := by
  constructor
  · intro pb pl ps sb sl ss sb' sl' ss' h
    cases pb <;> cases pl <;> cases ps <;>
      simp_all [exec_inspect, MiniscriptInfo.combine, MiniscriptInfo.from_bare,
        MiniscriptInfo.from_p2sh, MiniscriptInfo.from_segwitv0]
  · intro sb sl ss info
    cases sb <;> cases sl <;> cases ss <;>
      simp_all [exec_inspect, MiniscriptInfo.combine, MiniscriptInfo.from_bare,
        MiniscriptInfo.from_p2sh, MiniscriptInfo.from_segwitv0] <;>
      rintro rfl <;> simp

/-- Claim C10 (witness): when only the string-key Bare parse succeeds, the
report has key type String and no script. -/
theorem c10_witness :
    infoStrA.key_type = MiniscriptKeyType.string ∧ infoStrA.script = none := by
  exact c10_thm.2 (some msA) none none infoStrA rfl

/-- Claim C1 (counterexample): the inspect and parse operations never attempt
the Tapscript context — the attempted-context list is the three-element
Bare/Legacy/SegwitV0 list, not the spec's four-context list. -/
theorem c1_counterexample :
    Ctx.tapscript ∉ inspectAttemptedContexts ∧
    inspectAttemptedContexts ≠ specFourContexts := by
  decide

/-- Claim C1 (amended): inspect and parse attempt Miniscript construction
under each of the three contexts Bare, Legacy and SegwitV0 independently,
each success yielding a context-tagged report merged into one combined
response; an input accepted under Bare and Legacy (such as the script
encoding a bare multi(2,A,B,C)) reports valid under both, the SegwitV0 flag
reflecting that context's own outcome; no Tapscript verdict exists. -/
theorem c1_amended :
    inspectAttemptedContexts = [Ctx.bare, Ctx.legacy, Ctx.segwitv0] ∧
    (∀ (db dl : MsAnalysis) (ps sb sl ss : Option MsAnalysis)
        (info : MiniscriptInfo),
      exec_inspect (some db) (some dl) ps sb sl ss = Except.ok info →
      info.valid_script_contexts.bare = true ∧
      info.valid_script_contexts.p2sh = true ∧
      info.valid_script_contexts.segwitv0 = ps.isSome) := by
  refine ⟨rfl, ?_⟩
  intro db dl ps sb sl ss info h
  cases ps <;>
    simp_all [exec_inspect, MiniscriptInfo.combine, MiniscriptInfo.from_bare,
      MiniscriptInfo.from_p2sh, MiniscriptInfo.from_segwitv0,
      ScriptContexts.or, ScriptContexts.from_bare, ScriptContexts.from_p2sh,
      ScriptContexts.from_segwitv0] <;>
    simp [← h]

/-- Claim C1 (witness): the amended statement on a concrete run where Bare
and Legacy succeed with concrete keys and SegwitV0 fails. -/
theorem c1_witness :
    exec_inspect (some msA) (some msB) none none none none =
      Except.ok infoInspectAB ∧
    infoInspectAB.valid_script_contexts.bare = true ∧
    infoInspectAB.valid_script_contexts.p2sh = true ∧
    infoInspectAB.valid_script_contexts.segwitv0 = false := by
  have h : exec_inspect (some msA) (some msB) none none none none =
      Except.ok infoInspectAB := rfl
  have h2 := c1_amended.2 msA msB none none none none infoInspectAB h
  exact ⟨h, h2.1, h2.2.1, h2.2.2⟩

/-- Claim C7: for every requested target context — all four of Bare, Legacy,
SegwitV0 and Tapscript are accepted — `exec_compile` returns the encoding of
whatever the per-context best-compilation oracle produces (so any contract
the oracle satisfies, such as the spec's cheapest-legal-implementation
contract, carries over to the returned script), fails with the parse error
exactly when the policy is not a valid concrete policy, and fails with the
compilation error exactly when the oracle has no legal encoding. -/
theorem c7_thm : ∀ {MS SOut : Type} (parsed : Option SPolicy)
    (bc : Ctx → SPolicy → Option MS) (encode : MS → SOut) (ty : Ctx)
    (Good : Ctx → SPolicy → MS → Prop),
    (∀ ctx p m, bc ctx p = some m → Good ctx p m) →
    ((parsed = none →
        exec_compile parsed bc encode ty = Except.error "Invalid concrete policy") ∧
     (∀ c, parsed = some c →
       (bc ty c = none →
         exec_compile parsed bc encode ty = Except.error "Compilation error") ∧
       (∀ m, bc ty c = some m →
         exec_compile parsed bc encode ty = Except.ok (encode m) ∧ Good ty c m)) ∧
     (∀ ty' : Ctx, ty' ∈ compileContexts)) := by
  intro MS SOut parsed bc encode ty Good hGood
  refine ⟨?_, ?_, ?_⟩
  · intro h
    subst h
    rfl
  · intro c hc
    subst hc
    constructor
    · intro h
      simp [exec_compile, h]
    · intro m hm
      exact ⟨by simp [exec_compile, hm], hGood ty c m hm⟩
  · intro ty'
    cases ty' <;> simp [compileContexts]

/-- Claim C7 (witness): the compile driver at the Tapscript target on a
concrete oracle. -/
theorem c7_witness :
    @exec_compile Nat Nat (some (SPolicy.keyP 1))
        (fun _ _ => some 7) (fun m => m) Ctx.tapscript = Except.ok 7 ∧
    (7 : Nat) = 7 := by
  have h := (c7_thm (some (SPolicy.keyP 1)) (fun _ _ => some 7) (fun m => m)
    Ctx.tapscript (fun _ _ m => m = 7)
    (fun _ _ m hm => (Option.some.inj hm).symm)).2.1 (SPolicy.keyP 1) rfl
  exact (h.2 7 rfl)

/-- Structural induction for the nested policy tree, with list children
handled by membership. -/
theorem SPolicy.inductionOn (motive : SPolicy → Prop)
    (htriv : motive .triv) (hunsat : motive .unsat)
    (hkey : ∀ k, motive (.keyP k)) (hafter : ∀ n, motive (.afterP n))
    (holder : ∀ n, motive (.olderP n)) (hsha : ∀ h, motive (.sha256P h))
    (hh256 : ∀ h, motive (.hash256P h)) (hrip : ∀ h, motive (.ripemd160P h))
    (hh160 : ∀ h, motive (.hash160P h))
    (hand : ∀ l, (∀ q ∈ l, motive q) → motive (.andP l))
    (hor : ∀ l, (∀ q ∈ l, motive q) → motive (.orP l))
    (hthresh : ∀ k l, (∀ q ∈ l, motive q) → motive (.threshP k l)) :
    ∀ p, motive p := by
  have H : ∀ (n : Nat) (p : SPolicy), sizeOf p ≤ n → motive p := by
    intro n
    induction n with
    | zero =>
      intro p hp
      cases p <;> simp at hp
    | succ n ih =>
      intro p hp
      cases p with
      | triv => exact htriv
      | unsat => exact hunsat
      | keyP k => exact hkey k
      | afterP m => exact hafter m
      | olderP m => exact holder m
      | sha256P h => exact hsha h
      | hash256P h => exact hh256 h
      | ripemd160P h => exact hrip h
      | hash160P h => exact hh160 h
      | andP l =>
        refine hand l fun q hq => ih q ?_
        have h1 := List.sizeOf_lt_of_mem hq
        simp at hp
        omega
      | orP l =>
        refine hor l fun q hq => ih q ?_
        have h1 := List.sizeOf_lt_of_mem hq
        simp at hp
        omega
      | threshP k l =>
        refine hthresh k l fun q hq => ih q ?_
        have h1 := List.sizeOf_lt_of_mem hq
        simp at hp
        omega
  exact fun p => H (sizeOf p) p le_rfl

set_option maxHeartbeats 1000000 in
/-- Joint injectivity of the policy and policy-list encodings, by strong
induction on size. -/
theorem enc_inj_aux : ∀ n : Nat,
    (∀ p q : SPolicy, sizeOf p ≤ n → encP p = encP q → p = q) ∧
    (∀ l m : List SPolicy, sizeOf l ≤ n → encL l = encL m → l = m) := by
  intro n
  induction n with
  | zero =>
    constructor
    · intro p q hp
      cases p <;> simp at hp
    · intro l m hl
      cases l <;> simp at hl
  | succ n ih =>
    constructor
    · intro p q hp h
      cases p <;> cases q
      all_goals try simp only [encP, Nat.pair_eq_pair] at h
      all_goals try (obtain ⟨h1, h2⟩ := h; omega)
      case triv.triv => rfl
      case unsat.unsat => rfl
      case keyP.keyP => rw [h.2]
      case afterP.afterP => rw [h.2]
      case olderP.olderP => rw [h.2]
      case sha256P.sha256P => rw [h.2]
      case hash256P.hash256P => rw [h.2]
      case ripemd160P.ripemd160P => rw [h.2]
      case hash160P.hash160P => rw [h.2]
      case andP.andP l m =>
        exact congrArg SPolicy.andP (ih.2 l m (by simp at hp; omega) h.2)
      case orP.orP l m =>
        exact congrArg SPolicy.orP (ih.2 l m (by simp at hp; omega) h.2)
      case threshP.threshP k l k' m =>
        rw [h.2.1, ih.2 l m (by simp at hp; omega) h.2.2]
    · intro l m hl h
      cases l with
      | nil =>
        cases m with
        | nil => rfl
        | cons q m' => simp [encL] at h
      | cons p l' =>
        cases m with
        | nil => simp [encL] at h
        | cons q m' =>
          simp only [encL, Nat.add_right_cancel_iff, Nat.pair_eq_pair] at h
          have h1 : p = q := ih.1 p q (by simp at hl; omega) h.1
          have h2 : l' = m' := ih.2 l' m' (by simp at hl; omega) h.2
          rw [h1, h2]

/-- The policy encoding is injective, so `rle` is an antisymmetric total
order on policies. -/
theorem encP_inj : ∀ {p q : SPolicy}, encP p = encP q → p = q :=
  fun {p q} h => (enc_inj_aux (sizeOf p)).1 p q le_rfl h

/-- Recursive child sorting is a map. -/
theorem sortL_eq_map : ∀ l : List SPolicy, sortL l = l.map sortP := by
  intro l
  induction l with
  | nil => rfl
  | cons p l ih => simp [sortL, ih]

/-- Sorting by the canonical order is invariant under permutation of the
input list, because the order is total, transitive and antisymmetric. -/
theorem insertionSort_rle_perm_eq {l l' : List SPolicy} (h : l.Perm l') :
    List.insertionSort rle l = List.insertionSort rle l' := by
  have hanti : IsAntisymm SPolicy rle :=
    ⟨fun a b h1 h2 => encP_inj (Nat.le_antisymm h1 h2)⟩
  exact @List.eq_of_perm_of_sorted SPolicy rle hanti _ _
    (((List.perm_insertionSort rle l).trans h).trans
      (List.perm_insertionSort rle l').symm)
    (List.sorted_insertionSort rle l) (List.sorted_insertionSort rle l')

/-- Claim C9: canonical sorting is insensitive to any reordering of the
children of AND/OR nodes anywhere in the policy. -/
theorem c9_thm : ∀ p p' : SPolicy, Reorder p p' → sortP p = sortP p' := by
  intro p p' h
  induction h with
  | refl p => rfl
  | trans h1 h2 ih1 ih2 => exact ih1.trans ih2
  | permAnd hperm =>
    simp only [sortP, sortL_eq_map]
    exact congrArg SPolicy.andP (insertionSort_rle_perm_eq (hperm.map sortP))
  | permOr hperm =>
    simp only [sortP, sortL_eq_map]
    exact congrArg SPolicy.orP (insertionSort_rle_perm_eq (hperm.map sortP))
  | congrAnd l₁ l₂ hr ih =>
    simp only [sortP, sortL_eq_map, List.map_append, List.map_cons, ih]
  | congrOr l₁ l₂ hr ih =>
    simp only [sortP, sortL_eq_map, List.map_append, List.map_cons, ih]
  | congrThresh k l₁ l₂ hr ih =>
    simp only [sortP, sortL_eq_map, List.map_append, List.map_cons, ih]

/-- Claim C9 (witness): swapping the two children of an AND node leaves the
sorted output unchanged. -/
theorem c9_witness :
    sortP (.andP [.keyP 5, .keyP 2]) = sortP (.andP [.keyP 2, .keyP 5]) :=
  c9_thm (.andP [.keyP 5, .keyP 2]) (.andP [.keyP 2, .keyP 5])
    (Reorder.permAnd (List.Perm.swap (SPolicy.keyP 2) (SPolicy.keyP 5) []))

/-- Recursive child normalization is a map. -/
theorem normList_eq_map : ∀ l : List SPolicy, normList l = l.map normalizeP := by
  intro l
  induction l with
  | nil => rfl
  | cons p l ih => simp [normList, ih]

/-- Normality of an AND child list, element-wise. -/
theorem isNormalAndList_iff : ∀ l : List SPolicy,
    isNormalAndList l = true ↔
    ∀ q ∈ l, isNormal q = true ∧ isTrivNode q = false ∧
      isUnsatNode q = false ∧ isAndNode q = false := by
  intro l
  induction l with
  | nil => simp [isNormalAndList]
  | cons p l ih =>
    simp [isNormalAndList, ih, Bool.and_eq_true]
    aesop

/-- Normality of an OR child list, element-wise. -/
theorem isNormalOrList_iff : ∀ l : List SPolicy,
    isNormalOrList l = true ↔
    ∀ q ∈ l, isNormal q = true ∧ isTrivNode q = false ∧
      isUnsatNode q = false ∧ isOrNode q = false := by
  intro l
  induction l with
  | nil => simp [isNormalOrList]
  | cons p l ih =>
    simp [isNormalOrList, ih, Bool.and_eq_true]
    aesop

/-- Normality of a THRESH child list, element-wise. -/
theorem isNormalAnyList_iff : ∀ l : List SPolicy,
    isNormalAnyList l = true ↔ ∀ q ∈ l, isNormal q = true := by
  intro l
  induction l with
  | nil => simp [isNormalAnyList]
  | cons p l ih => simp [isNormalAnyList, ih, Bool.and_eq_true]

/-- Every element surviving the AND flattening pass either came from the list
directly (and is neither trivial nor an AND node) or from inside an inlined
AND child. -/
theorem mem_flattenAnd : ∀ (l : List SPolicy) (q : SPolicy),
    q ∈ flattenAnd l →
    (q ∈ l ∧ isTrivNode q = false ∧ isAndNode q = false) ∨
    (∃ l', SPolicy.andP l' ∈ l ∧ q ∈ l') := by
  intro l
  induction l with
  | nil => intro q hq; simp [flattenAnd] at hq
  | cons p l ih =>
    intro q hq
    cases p
    case triv =>
      rcases ih q (by simpa [flattenAnd] using hq) with h | ⟨l', hl', hql'⟩
      · exact Or.inl ⟨List.mem_cons_of_mem _ h.1, h.2⟩
      · exact Or.inr ⟨l', List.mem_cons_of_mem _ hl', hql'⟩
    case andP l'' =>
      have hq' : q ∈ l'' ∨ q ∈ flattenAnd l := by
        simpa [flattenAnd] using hq
      rcases hq' with h | h
      · exact Or.inr ⟨l'', List.mem_cons_self _ _, h⟩
      · rcases ih q h with h2 | ⟨l', hl', hql'⟩
        · exact Or.inl ⟨List.mem_cons_of_mem _ h2.1, h2.2⟩
        · exact Or.inr ⟨l', List.mem_cons_of_mem _ hl', hql'⟩
    all_goals
      rcases List.mem_cons.mp (by simpa [flattenAnd] using hq) with rfl | h
    all_goals try exact Or.inl ⟨List.mem_cons_self _ _, rfl, rfl⟩
    all_goals
      rcases ih q h with h2 | ⟨l', hl', hql'⟩
    all_goals try exact Or.inl ⟨List.mem_cons_of_mem _ h2.1, h2.2⟩
    all_goals exact Or.inr ⟨l', List.mem_cons_of_mem _ hl', hql'⟩

/-- Every element surviving the OR flattening pass either came from the list
directly (and is neither unsatisfiable nor an OR node) or from inside an
inlined OR child. -/
theorem mem_flattenOr : ∀ (l : List SPolicy) (q : SPolicy),
    q ∈ flattenOr l →
    (q ∈ l ∧ isUnsatNode q = false ∧ isOrNode q = false) ∨
    (∃ l', SPolicy.orP l' ∈ l ∧ q ∈ l') := by
  intro l
  induction l with
  | nil => intro q hq; simp [flattenOr] at hq
  | cons p l ih =>
    intro q hq
    cases p
    case unsat =>
      rcases ih q (by simpa [flattenOr] using hq) with h | ⟨l', hl', hql'⟩
      · exact Or.inl ⟨List.mem_cons_of_mem _ h.1, h.2⟩
      · exact Or.inr ⟨l', List.mem_cons_of_mem _ hl', hql'⟩
    case orP l'' =>
      have hq' : q ∈ l'' ∨ q ∈ flattenOr l := by
        simpa [flattenOr] using hq
      rcases hq' with h | h
      · exact Or.inr ⟨l'', List.mem_cons_self _ _, h⟩
      · rcases ih q h with h2 | ⟨l', hl', hql'⟩
        · exact Or.inl ⟨List.mem_cons_of_mem _ h2.1, h2.2⟩
        · exact Or.inr ⟨l', List.mem_cons_of_mem _ hl', hql'⟩
    all_goals
      rcases List.mem_cons.mp (by simpa [flattenOr] using hq) with rfl | h
    all_goals try exact Or.inl ⟨List.mem_cons_self _ _, rfl, rfl⟩
    all_goals
      rcases ih q h with h2 | ⟨l', hl', hql'⟩
    all_goals try exact Or.inl ⟨List.mem_cons_of_mem _ h2.1, h2.2⟩
    all_goals exact Or.inr ⟨l', List.mem_cons_of_mem _ hl', hql'⟩

/-- On a list without trivial or AND elements the flattening pass is the
identity. -/
theorem flattenAnd_eq_self : ∀ l : List SPolicy,
    (∀ q ∈ l, isTrivNode q = false ∧ isAndNode q = false) →
    flattenAnd l = l := by
  intro l
  induction l with
  | nil => intro _; rfl
  | cons p l ih =>
    intro h
    have hp := h p (List.mem_cons_self _ _)
    have hl := fun q hq => h q (List.mem_cons_of_mem _ hq)
    cases p
    case triv => simp [isTrivNode] at hp
    case andP l'' => simp [isAndNode] at hp
    all_goals simp [flattenAnd, ih hl]

/-- On a list without unsatisfiable or OR elements the flattening pass is the
identity. -/
theorem flattenOr_eq_self : ∀ l : List SPolicy,
    (∀ q ∈ l, isUnsatNode q = false ∧ isOrNode q = false) →
    flattenOr l = l := by
  intro l
  induction l with
  | nil => intro _; rfl
  | cons p l ih =>
    intro h
    have hp := h p (List.mem_cons_self _ _)
    have hl := fun q hq => h q (List.mem_cons_of_mem _ hq)
    cases p
    case unsat => simp [isUnsatNode] at hp
    case orP l'' => simp [isOrNode] at hp
    all_goals simp [flattenOr, ih hl]

/-- Rebuilding an AND node from normal children yields a normal policy. -/
theorem mkAnd_normal : ∀ l : List SPolicy,
    (∀ q ∈ l, isNormal q = true) → isNormal (mkAnd l) = true := by
  intro l h
  by_cases hany : (flattenAnd l).any isUnsatNode = true
  · simp [mkAnd, hany, isNormal]
  · have hany' : (flattenAnd l).any isUnsatNode = false :=
      Bool.eq_false_iff.mpr hany
    by_cases hemp : (flattenAnd l).isEmpty = true
    · simp [mkAnd, hany', hemp, isNormal]
    · have hemp' : (flattenAnd l).isEmpty = false := Bool.eq_false_iff.mpr hemp
      have hmem : ∀ q ∈ flattenAnd l, isNormal q = true ∧ isTrivNode q = false ∧
          isUnsatNode q = false ∧ isAndNode q = false := by
        intro q hq
        have hunsat : isUnsatNode q = false :=
          Bool.eq_false_iff.mpr (List.any_eq_false.mp hany' q hq)
        rcases mem_flattenAnd l q hq with ⟨hql, htriv, hand⟩ | ⟨l', hl', hql'⟩
        · exact ⟨h q hql, htriv, hunsat, hand⟩
        · have hn := h _ hl'
          simp only [isNormal, Bool.and_eq_true] at hn
          exact (isNormalAndList_iff l').mp hn.2 q hql'
      simp [mkAnd, hany', hemp', isNormal, hemp',
        (isNormalAndList_iff (flattenAnd l)).mpr hmem]

/-- Rebuilding an OR node from normal children yields a normal policy. -/
theorem mkOr_normal : ∀ l : List SPolicy,
    (∀ q ∈ l, isNormal q = true) → isNormal (mkOr l) = true := by
  intro l h
  by_cases hany : (flattenOr l).any isTrivNode = true
  · simp [mkOr, hany, isNormal]
  · have hany' : (flattenOr l).any isTrivNode = false :=
      Bool.eq_false_iff.mpr hany
    by_cases hemp : (flattenOr l).isEmpty = true
    · simp [mkOr, hany', hemp, isNormal]
    · have hemp' : (flattenOr l).isEmpty = false := Bool.eq_false_iff.mpr hemp
      have hmem : ∀ q ∈ flattenOr l, isNormal q = true ∧ isTrivNode q = false ∧
          isUnsatNode q = false ∧ isOrNode q = false := by
        intro q hq
        have htriv : isTrivNode q = false :=
          Bool.eq_false_iff.mpr (List.any_eq_false.mp hany' q hq)
        rcases mem_flattenOr l q hq with ⟨hql, hunsat, hor⟩ | ⟨l', hl', hql'⟩
        · exact ⟨h q hql, htriv, hunsat, hor⟩
        · have hn := h _ hl'
          simp only [isNormal, Bool.and_eq_true] at hn
          exact (isNormalOrList_iff l').mp hn.2 q hql'
      simp [mkOr, hany', hemp', isNormal,
        (isNormalOrList_iff (flattenOr l)).mpr hmem]

/-- `normalizeP` produces normal policies. -/
theorem normal_normalizeP : ∀ p : SPolicy, isNormal (normalizeP p) = true := by
  intro p
  induction p using SPolicy.inductionOn with
  | htriv => rfl
  | hunsat => rfl
  | hkey k => rfl
  | hafter n => rfl
  | holder n => rfl
  | hsha h => rfl
  | hh256 h => rfl
  | hrip h => rfl
  | hh160 h => rfl
  | hand l ih =>
    have : ∀ q ∈ normList l, isNormal q = true := by
      intro q hq
      rw [normList_eq_map] at hq
      rcases List.mem_map.mp hq with ⟨r, hr, rfl⟩
      exact ih r hr
    simpa [normalizeP] using mkAnd_normal (normList l) this
  | hor l ih =>
    have : ∀ q ∈ normList l, isNormal q = true := by
      intro q hq
      rw [normList_eq_map] at hq
      rcases List.mem_map.mp hq with ⟨r, hr, rfl⟩
      exact ih r hr
    simpa [normalizeP] using mkOr_normal (normList l) this
  | hthresh k l ih =>
    have : ∀ q ∈ normList l, isNormal q = true := by
      intro q hq
      rw [normList_eq_map] at hq
      rcases List.mem_map.mp hq with ⟨r, hr, rfl⟩
      exact ih r hr
    simpa [normalizeP, isNormal] using (isNormalAnyList_iff (normList l)).mpr this

/-- `normalizeP` fixes normal policies. -/
theorem normalizeP_of_normal : ∀ p : SPolicy,
    isNormal p = true → normalizeP p = p := by
  intro p
  induction p using SPolicy.inductionOn with
  | htriv => intro _; rfl
  | hunsat => intro _; rfl
  | hkey k => intro _; rfl
  | hafter n => intro _; rfl
  | holder n => intro _; rfl
  | hsha h => intro _; rfl
  | hh256 h => intro _; rfl
  | hrip h => intro _; rfl
  | hh160 h => intro _; rfl
  | hand l ih =>
    intro h
    simp only [isNormal, Bool.and_eq_true] at h
    have hlist := (isNormalAndList_iff l).mp h.2
    have hmap : normList l = l := by
      rw [normList_eq_map]
      have : ∀ q ∈ l, normalizeP q = q := fun q hq => ih q hq (hlist q hq).1
      calc l.map normalizeP = l.map id := List.map_congr_left this
        _ = l := List.map_id l
    have hflat : flattenAnd l = l :=
      flattenAnd_eq_self l fun q hq => ⟨(hlist q hq).2.1, (hlist q hq).2.2.2⟩
    have hany : l.any isUnsatNode = false :=
      List.any_eq_false.mpr fun q hq => by simp [(hlist q hq).2.2.1]
    have hemp : l.isEmpty = false := by
      cases hl : l.isEmpty
      · rfl
      · exfalso
        simp only [isNormal, Bool.and_eq_true, hl] at h
        exact absurd h.1 (by simp)
    simp [normalizeP, mkAnd, hmap, hflat, hany, hemp]
  | hor l ih =>
    intro h
    simp only [isNormal, Bool.and_eq_true] at h
    have hlist := (isNormalOrList_iff l).mp h.2
    have hmap : normList l = l := by
      rw [normList_eq_map]
      have : ∀ q ∈ l, normalizeP q = q := fun q hq => ih q hq (hlist q hq).1
      calc l.map normalizeP = l.map id := List.map_congr_left this
        _ = l := List.map_id l
    have hflat : flattenOr l = l :=
      flattenOr_eq_self l fun q hq => ⟨(hlist q hq).2.2.1, (hlist q hq).2.2.2⟩
    have hany : l.any isTrivNode = false :=
      List.any_eq_false.mpr fun q hq => by simp [(hlist q hq).2.1]
    have hemp : l.isEmpty = false := by
      cases hl : l.isEmpty
      · rfl
      · exfalso
        simp only [isNormal, Bool.and_eq_true, hl] at h
        exact absurd h.1 (by simp)
    simp [normalizeP, mkOr, hmap, hflat, hany, hemp]
  | hthresh k l ih =>
    intro h
    simp only [isNormal] at h
    have hlist := (isNormalAnyList_iff l).mp h
    have hmap : normList l = l := by
      rw [normList_eq_map]
      have : ∀ q ∈ l, normalizeP q = q := fun q hq => ih q hq (hlist q hq)
      calc l.map normalizeP = l.map id := List.map_congr_left this
        _ = l := List.map_id l
    simp [normalizeP, hmap]

/-- Claim C8: policy normalization is idempotent. -/
theorem c8_thm : ∀ p : SPolicy, normalizeP (normalizeP p) = normalizeP p :=
  fun p => normalizeP_of_normal (normalizeP p) (normal_normalizeP p)

/-- A conjunction has no satisfying path exactly when some child has none. -/
theorem sumKeys_none_iff : ∀ l : List SPolicy,
    (∀ q ∈ l, (minimum_n_keys q = none ↔ is_unsatisfiable q = true)) →
    (sumKeys l = none ↔ anyUnsatList l = true) := by
  intro l
  induction l with
  | nil => intro _; simp [sumKeys, anyUnsatList]
  | cons p l ih =>
    intro h
    have hp := h p (List.mem_cons_self _ _)
    have hl := ih fun q hq => h q (List.mem_cons_of_mem _ hq)
    cases hq : minimum_n_keys p with
    | none =>
      simp [sumKeys, anyUnsatList, hq, hp.mp hq]
    | some a =>
      have hpu : is_unsatisfiable p = false := by
        cases hu : is_unsatisfiable p
        · rfl
        · exact absurd (hp.mpr hu) (by simp [hq])
      cases hr : sumKeys l with
      | none => simp [sumKeys, anyUnsatList, hq, hr, hpu, hl.mp hr]
      | some b =>
        have : anyUnsatList l = false := by
          cases hu : anyUnsatList l
          · rfl
          · exact absurd (hl.mpr hu) (by simp [hr])
        simp [sumKeys, anyUnsatList, hq, hr, hpu, this]

/-- A disjunction has no satisfying path exactly when no child has one. -/
theorem minKeysList_none_iff : ∀ l : List SPolicy,
    (∀ q ∈ l, (minimum_n_keys q = none ↔ is_unsatisfiable q = true)) →
    (minKeysList l = none ↔ allUnsatList l = true) := by
  intro l
  induction l with
  | nil => intro _; simp [minKeysList, allUnsatList]
  | cons p l ih =>
    intro h
    have hp := h p (List.mem_cons_self _ _)
    have hl := ih fun q hq => h q (List.mem_cons_of_mem _ hq)
    cases hq : minimum_n_keys p with
    | none =>
      cases hr : minKeysList l with
      | none => simp [minKeysList, allUnsatList, hq, hr, hp.mp hq, hl.mp hr]
      | some b =>
        have : allUnsatList l = false := by
          cases hu : allUnsatList l
          · rfl
          · exact absurd (hl.mpr hu) (by simp [hr])
        simp [minKeysList, allUnsatList, hq, hr, this]
    | some a =>
      have hpu : is_unsatisfiable p = false := by
        cases hu : is_unsatisfiable p
        · rfl
        · exact absurd (hp.mpr hu) (by simp [hq])
      cases hr : minKeysList l with
      | none => simp [minKeysList, allUnsatList, hq, hr, hpu]
      | some b => simp [minKeysList, allUnsatList, hq, hr, hpu]

/-- The satisfiable-children key counts are in bijection with the
satisfiable children. -/
theorem subKeys_length : ∀ l : List SPolicy,
    (∀ q ∈ l, (minimum_n_keys q = none ↔ is_unsatisfiable q = true)) →
    (subKeys l).length = satCount l := by
  intro l
  induction l with
  | nil => intro _; rfl
  | cons p l ih =>
    intro h
    have hp := h p (List.mem_cons_self _ _)
    have hl := ih fun q hq => h q (List.mem_cons_of_mem _ hq)
    cases hq : minimum_n_keys p with
    | none => simp [subKeys, satCount, hq, hp.mp hq, hl]
    | some a =>
      have hpu : is_unsatisfiable p = false := by
        cases hu : is_unsatisfiable p
        · rfl
        · exact absurd (hp.mpr hu) (by simp [hq])
      simp [subKeys, satCount, hq, hpu, hl]
      omega

/-- The conservative minimum-key computation returns nothing exactly on the
policies the conservative satisfiability walk reports unsatisfiable. -/
theorem minKeys_none_iff : ∀ p : SPolicy,
    minimum_n_keys p = none ↔ is_unsatisfiable p = true := by
  intro p
  induction p using SPolicy.inductionOn with
  | htriv => simp [minimum_n_keys, is_unsatisfiable]
  | hunsat => simp [minimum_n_keys, is_unsatisfiable]
  | hkey k => simp [minimum_n_keys, is_unsatisfiable]
  | hafter n => simp [minimum_n_keys, is_unsatisfiable]
  | holder n => simp [minimum_n_keys, is_unsatisfiable]
  | hsha h => simp [minimum_n_keys, is_unsatisfiable]
  | hh256 h => simp [minimum_n_keys, is_unsatisfiable]
  | hrip h => simp [minimum_n_keys, is_unsatisfiable]
  | hh160 h => simp [minimum_n_keys, is_unsatisfiable]
  | hand l ih => simpa [minimum_n_keys, is_unsatisfiable] using sumKeys_none_iff l ih
  | hor l ih => simpa [minimum_n_keys, is_unsatisfiable] using minKeysList_none_iff l ih
  | hthresh k l ih =>
    simp only [minimum_n_keys, is_unsatisfiable, subKeys_length l ih]
    by_cases hk : satCount l < k
    · simp [hk]
    · simp [hk]

/-- Claim C3 (counterexample): the unsatisfiable concrete policy does not
yield a successful report with `is_unsatisfiable = true` — `analyze_policy`
fails with `CouldNotSatisfy`. -/
theorem c3_counterexample :
    @get_policy_info Nat (some SPolicy.unsat) (Except.ok SPolicy.triv)
        (fun _ => none) (fun _ => none) (fun _ => none)
        MiniscriptKeyType.publicKey =
      Except.error MsError.couldNotSatisfy ∧
    is_unsatisfiable SPolicy.unsat = true :=
  ⟨rfl, rfl⟩

/-- Claim C3 (amended): an unsatisfiable policy is fatal to `analyze_policy`
rather than reported — `minimum_n_keys` is `none` exactly on unsatisfiable
policies and `get_policy_info` turns that into the `CouldNotSatisfy` failure,
so a successfully returned report always has `is_unsatisfiable = false`. -/
theorem c3_amended : ∀ MS : Type,
    (∀ (c : SPolicy) sp (bc1 bc2 bc3 : SPolicy → Option MS) kt,
      is_unsatisfiable (liftC c) = true →
      get_policy_info (some c) sp bc1 bc2 bc3 kt =
        Except.error MsError.couldNotSatisfy) ∧
    (∀ cp sp (bc1 bc2 bc3 : SPolicy → Option MS) kt info,
      get_policy_info cp sp bc1 bc2 bc3 kt = Except.ok info →
      info.is_unsatisfiable = false) := by
  intro MS
  constructor
  · intro c sp bc1 bc2 bc3 kt h
    have hmk : minimum_n_keys (liftC c) = none := (minKeys_none_iff _).mpr h
    simp [get_policy_info, hmk]
  · intro cp sp bc1 bc2 bc3 kt info h
    cases cp with
    | some c =>
      cases hmk : minimum_n_keys (liftC c) with
      | none => simp [get_policy_info, hmk] at h
      | some mnk =>
        simp only [get_policy_info, hmk, Except.ok.injEq] at h
        subst h
        cases hu : is_unsatisfiable (liftC c)
        · rfl
        · exact absurd ((minKeys_none_iff _).mpr hu) (by simp [hmk])
    | none =>
      cases sp with
      | error e => simp [get_policy_info] at h
      | ok p =>
        cases hmk : minimum_n_keys p with
        | none => simp [get_policy_info, hmk] at h
        | some mnk =>
          simp only [get_policy_info, hmk, Except.ok.injEq] at h
          subst h
          cases hu : is_unsatisfiable p
          · rfl
          · exact absurd ((minKeys_none_iff _).mpr hu) (by simp [hmk])

/-- Claim C3 (witness): a satisfiable concrete policy yields a successful
report, with `is_unsatisfiable = false`. -/
theorem c3_witness :
    @get_policy_info Nat (some (SPolicy.keyP 1)) (Except.ok SPolicy.triv)
        (fun _ => some 100) (fun _ => some 101) (fun _ => some 102)
        MiniscriptKeyType.publicKey = Except.ok infoK1 ∧
    infoK1.is_unsatisfiable = false := by
  have h : @get_policy_info Nat (some (SPolicy.keyP 1))
      (Except.ok SPolicy.triv) (fun _ => some 100) (fun _ => some 101)
      (fun _ => some 102) MiniscriptKeyType.publicKey = Except.ok infoK1 := rfl
  exact ⟨h, (c3_amended Nat).2 (some (SPolicy.keyP 1)) (Except.ok SPolicy.triv)
    (fun _ => some 100) (fun _ => some 101) (fun _ => some 102)
    MiniscriptKeyType.publicKey infoK1 h⟩

/-- Claim C4 (counterexample): `analyze_policy` compiles a concrete policy
for Bare, Legacy and SegwitV0 only — Tapscript is not among the compiled
contexts of the report. -/
theorem c4_counterexample :
    Ctx.tapscript ∉ policyCompiledContexts ∧
    policyCompiledContexts ≠ specFourContexts := by
  decide

/-- Claim C4 (amended): `analyze_policy` first attempts the concrete parse
and only otherwise the abstract one; it returns triviality, satisfiability,
key counts, timelocks and the normalized and sorted canonical forms of the
lifted policy, and, exactly when the input is concrete, the best compiled
script for each of the three contexts Bare, Legacy and SegwitV0 (no
Tapscript compilation exists). -/
theorem c4_amended : ∀ (MS : Type) (sp sp' : Except MsError SPolicy)
    (bc1 bc2 bc3 : SPolicy → Option MS) (kt : MiniscriptKeyType),
    (∀ c, get_policy_info (some c) sp bc1 bc2 bc3 kt =
      get_policy_info (some c) sp' bc1 bc2 bc3 kt) ∧
    (∀ c info, get_policy_info (some c) sp bc1 bc2 bc3 kt = Except.ok info →
      info.is_concrete = true ∧
      info.miniscript = some { bare := bc1 c, p2sh := bc2 c, segwitv0 := bc3 c } ∧
      info.key_type = kt ∧
      info.is_trivial = is_trivial (liftC c) ∧
      info.is_unsatisfiable = is_unsatisfiable (liftC c) ∧
      info.n_keys = n_keys (liftC c) ∧
      some info.minimum_n_keys = minimum_n_keys (liftC c) ∧
      info.relative_timelocks = relative_timelocks (liftC c) ∧
      info.sorted = sortP (liftC c) ∧
      info.normalized = normalizeP (liftC c)) ∧
    (∀ p info, sp = Except.ok p →
      get_policy_info none sp bc1 bc2 bc3 kt = Except.ok info →
      info.is_concrete = false ∧
      info.miniscript = none ∧
      info.sorted = sortP p ∧
      info.normalized = normalizeP p ∧
      info.is_trivial = is_trivial p ∧
      info.is_unsatisfiable = is_unsatisfiable p ∧
      info.n_keys = n_keys p ∧
      some info.minimum_n_keys = minimum_n_keys p) ∧
    (∀ e, sp = Except.error e →
      get_policy_info none sp bc1 bc2 bc3 kt = Except.error e) := by
  intro MS sp sp' bc1 bc2 bc3 kt
  refine ⟨?_, ?_, ?_, ?_⟩
  · intro c
    rfl
  · intro c info h
    cases hmk : minimum_n_keys (liftC c) with
    | none => simp [get_policy_info, hmk] at h
    | some mnk =>
      simp only [get_policy_info, hmk, Except.ok.injEq] at h
      subst h
      exact ⟨rfl, rfl, rfl, rfl, rfl, rfl, rfl, rfl, rfl, rfl⟩
  · intro p info hsp h
    subst hsp
    cases hmk : minimum_n_keys p with
    | none => simp [get_policy_info, hmk] at h
    | some mnk =>
      simp only [get_policy_info, hmk, Except.ok.injEq] at h
      subst h
      exact ⟨rfl, rfl, rfl, rfl, rfl, rfl, rfl, rfl⟩
  · intro e hsp
    subst hsp
    rfl

/-- Claim C4 (witness): the amended statement exercised on the concrete
single-key policy with the sample compilation oracles. -/
theorem c4_witness :
    infoK1.is_concrete = true ∧
    infoK1.miniscript =
      some (⟨some 100, some 101, some 102⟩ : Miniscripts Nat) ∧
    infoK1.sorted = sortP (liftC (SPolicy.keyP 1)) := by
  have h := (c4_amended Nat (Except.ok SPolicy.triv) (Except.error MsError.parseFailed)
    (fun _ => some 100) (fun _ => some 101) (fun _ => some 102)
    MiniscriptKeyType.publicKey).2.1 (SPolicy.keyP 1) infoK1 rfl
  exact ⟨h.1, h.2.1, h.2.2.2.2.2.2.2.2.1⟩
